import Mathlib

/-!
Verification of the agentic-workflow pipeline of the SynthTeam monorepo.

The development shallowly embeds the pure control logic of
`AgenticWorkflow/AI_Engineer_Agent.py` (response cleaning, the
generate→review convergence loop, the top-level driver),
`AgenticWorkflow/RequirementsAgent.py` (`analyze_requirements`) and
`AgenticWorkflow/DatabaseAgent.py` (`generate_schemas`).

Modelling conventions:
* Python strings are `List Char` (`Str`); Python `str.strip` is `pyStrip`.
* JSON values are the inductive `Json`; the standard-library parser
  `json.loads` is an abstract total parameter `loads : Str → Option Json`
  (`none` models a raised `json.JSONDecodeError`).
* The language-model backend (`Runner.run_sync` on each agent) is an
  oracle (`Oracles`) giving the raw text returned by each agent call,
  indexed by the call site and the data interpolated into the prompt.
* Stateful loops become explicit state passing (`LoopState`); each stage
  invocation is recorded in an event trace so that claims about which
  stages run (and how often) are statable.
-/

/-- Python strings, modelled as lists of characters. -/
abbrev Str := List Char

/-- The whitespace characters stripped by Python `str.strip()`. -/
def isSpace (c : Char) : Bool :=
  c = ' ' || c = '\t' || c = '\n' || c = '\r' || c = '\x0b' || c = '\x0c'

/-- Python `str.strip()`: drop whitespace from both ends. -/
def pyStrip (s : Str) : Str :=
  ((s.dropWhile isSpace).reverse.dropWhile isSpace).reverse

/-- Split `s` at the first occurrence of `pat`:
`splitFirst pat s = some (a, b)` with `s = a ++ pat ++ b` where `a` is the
shortest such prefix, `none` when `pat` does not occur in `s`. -/
def splitFirst (pat : Str) : Str → Option (Str × Str)
  | [] => if pat.isPrefixOf ([] : Str) then some ([], []) else none
  | c :: cs =>
    if pat.isPrefixOf (c :: cs) then some ([], (c :: cs).drop pat.length)
    else
      match splitFirst pat cs with
      | some (a, b) => some (c :: a, b)
      | none => none

/-- Python `pat in s` (substring containment). -/
def containsSub (pat s : Str) : Bool := (splitFirst pat s).isSome

/-- Everything after the first occurrence of `pat` (pattern known to occur). -/
def afterFirst (pat s : Str) : Str :=
  match splitFirst pat s with
  | some (_, b) => b
  | none => []

/-- Everything before the first occurrence of `pat`; `s` itself when `pat`
does not occur — this is Python `s.split(pat)[0]`. -/
def takeBefore (pat s : Str) : Str :=
  match splitFirst pat s with
  | some (a, _) => a
  | none => s

/-- The reasoning-span opening marker. -/
def thinkOpen : Str := "<think>".toList

/-- The reasoning-span closing marker. -/
def thinkClose : Str := "</think>".toList

/-- The JSON-tagged markdown fence. -/
def fenceJson : Str := "```json".toList

/-- The plain markdown fence. -/
def fenceTicks : Str := "```".toList

/-- Fuelled worker for `stripThink`; the fuel only serves structural
recursion, `stripThink` supplies enough of it for all inputs. -/
def stripThinkAux : Nat → Str → Str
  | 0, s => s
  | fuel + 1, s =>
    match splitFirst thinkOpen s with
    | none => s
    | some (a, rest) =>
      match splitFirst thinkClose rest with
      | none => s
      | some (_, c) => a ++ stripThinkAux fuel c

/-- Embedding of `re.sub(r'<think>.*?</think>', '', text, flags=re.DOTALL)`:
repeatedly remove the span from the first `<think>` to the first `</think>`
after it, continuing after the removed span; when the first `<think>` has no
matching `</think>` the regex has no match at all (a later opener cannot have
a closer either) and the text is returned unchanged. -/
def stripThink (s : Str) : Str := stripThinkAux s.length s

/-- JSON values as produced by `json.loads`. Numbers are modelled as
integers (no claim depends on fractional values); object keys are strings. -/
inductive Json where
  | jnull
  | jbool (b : Bool)
  | jnum (n : Int)
  | jstr (s : Str)
  | jarr (elems : List Json)
  | jobj (entries : List (Str × Json))

open Json

/-- First value bound to key `k` in an association list. -/
def lookupKV : List (Str × Json) → Str → Option Json
  | [], _ => none
  | (k', v) :: rest, k => if k' = k then some v else lookupKV rest k

/-- Python `d[k] = v` on a `dict`: replace the value at key `k` in place
when the key is bound (keys of a Python dict are unique, so replacing the
first binding is exact), otherwise append the new binding at the end. -/
def setKV : List (Str × Json) → Str → Json → List (Str × Json)
  | [], k, v => [(k, v)]
  | (k1, v1) :: rest, k, v =>
    if k1 = k then (k, v) :: rest else (k1, v1) :: setKV rest k v

/-- Python `d.get(k)` on a JSON object (`none` for `None`); yields `none` on
non-objects, where Python would raise `AttributeError` — theorems that rely
on this operation carry object-shape hypotheses. -/
def Json.getKey : Json → Str → Option Json
  | jobj kvs, k => lookupKV kvs k
  | _, _ => none

/-- Python `d.get(k, d0)` on a JSON object. -/
def Json.getD (j : Json) (k : Str) (d0 : Json) : Json := (j.getKey k).getD d0

/-- Python `k in d` for a JSON object (key membership). -/
def Json.hasKey (j : Json) (k : Str) : Bool := (j.getKey k).isSome

/-- Python `d[k] = v` on a JSON object; identity on non-objects, where
Python would raise `TypeError` — theorems carry object-shape hypotheses. -/
def Json.setKey : Json → Str → Json → Json
  | jobj kvs, k, v => jobj (setKV kvs k v)
  | j, _, _ => j

/-- Whether a JSON value is an object (a Python `dict`). -/
def Json.isObj : Json → Bool
  | jobj _ => true
  | _ => false

/-- Python truthiness of a JSON value (`bool(x)`). -/
def truthy : Json → Bool
  | jnull => false
  | jbool b => b
  | jnum n => n != 0
  | jstr s => !s.isEmpty
  | jarr xs => !xs.isEmpty
  | jobj kvs => !kvs.isEmpty

/-- Python `j == "lit"` for a string literal `lit`: true exactly when `j`
is that string (used for `code_result.get("status") == "error"`, where a
missing key gives `None`, modelled as `jnull`, which compares unequal). -/
def isStr (j : Json) (lit : Str) : Bool :=
  match j with
  | jstr t => t = lit
  | _ => false

/-- Key `"error"` (also the string value `"error"` of the status tag). -/
def errK : Str := "error".toList

/-- Key `"raw"` of the per-stage parse-failure dictionaries. -/
def rawK : Str := "raw".toList

/-- Key `"files"`. -/
def filesK : Str := "files".toList

/-- Key `"status"`. -/
def statusK : Str := "status".toList

/-- Key `"approved"`. -/
def approvedK : Str := "approved".toList

/-- Key `"feedback_for_coder"`. -/
def feedbackK : Str := "feedback_for_coder".toList

/-- The reserved documentation key `"documentation.md"`. -/
def docK : Str := "documentation.md".toList

/-- Key `"schema"` of the final result. -/
def schemaK : Str := "schema".toList

/-- Key `"iterations"` of the final result. -/
def iterationsK : Str := "iterations".toList

/-- Key `"project_name"`. -/
def projectNameK : Str := "project_name".toList

/-- Key `"details"` of the top-level schema-failure result. -/
def detailsK : Str := "details".toList

/-- The fixed feedback text review parsing failures substitute:
`"Review parsing failed, please regenerate code"`. -/
def reviewFailFeedback : Str := "Review parsing failed, please regenerate code".toList

/-- The `"Failed to parse schema: {str(e)}"` message, with the exception
text abstracted away (no behaviour inspects it). -/
def failedParseSchemaMsg : Str := "Failed to parse schema".toList

/-- The `"Failed to parse code: {str(e)}"` message, exception text
abstracted away. -/
def failedParseCodeMsg : Str := "Failed to parse code".toList

/-- The `"Failed to parse review: {str(e)}"` message, exception text
abstracted away. -/
def failedParseReviewMsg : Str := "Failed to parse review".toList

/-- The top-level `"Schema generation failed"` message. -/
def schemaGenFailedMsg : Str := "Schema generation failed".toList

/-- The `"ai_service"` default project name. -/
def aiServiceDefault : Str := "ai_service".toList

/-
============================================
AI_Engineer_Agent.py — response extraction
============================================
-/

/-- The text-cleaning part of `parse_json_response` (everything before
`json.loads`): strip; remove `<think>…</think>` spans when an opening
marker is present (re-stripping after removal); then, when a fence is
present, keep the content between the first fence tag and the next fence.
`s.split(p)[1].split("```")[0]` equals `takeBefore "```" (afterFirst p s)`
because `p` itself starts with the three backticks, so the first fence in
the text after `p` is never later than the second occurrence of `p`. -/
def cleanResponse (responseText : Str) : Str :=
  let t := pyStrip responseText
  let t := if containsSub thinkOpen t then pyStrip (stripThink t) else t
  if containsSub fenceJson t then pyStrip (takeBefore fenceTicks (afterFirst fenceJson t))
  else if containsSub fenceTicks t then pyStrip (takeBefore fenceTicks (afterFirst fenceTicks t))
  else t

/-- `parse_json_response` of `AI_Engineer_Agent.py`, with `json.loads`
abstracted as the total function `loads` (`none` models the raised
`json.JSONDecodeError`). -/
def parse_json_response (loads : Str → Option Json) (responseText : Str) : Option Json :=
  loads (cleanResponse responseText)

/-
============================================
AI_Engineer_Agent.py — stage functions
============================================
The `Runner.run_sync` calls are abstracted as oracles returning the raw
model text for each call site; the raw text may depend on everything the
prompt interpolates that varies between calls (the iteration is threaded
through as a call index, as the model may answer differently each call).
The Python exception messages (`str(e)`) are abstracted as the fixed raw
text, since no observable behaviour depends on their contents.
-/

/-- The oracle bundle: `json.loads` plus the raw text produced by each
agent call of `AI_Engineer_Agent.py`. -/
structure Oracles where
  loads : Str → Option Json
  schemaRaw : Str
  codeRaw : Nat → Json → Json → Str
  reviewRaw : Nat → Json → Str
  docRaw : Json → Str

/-- The `except json.JSONDecodeError` dictionary of `generate_file_schema`. -/
def schemaParseFailure (raw : Str) : Json :=
  jobj [(errK, jstr failedParseSchemaMsg), (rawK, jstr raw), (filesK, jarr [])]

/-- `generate_file_schema`: parse the schema agent output, or return the
typed failure dictionary. -/
def generate_file_schema (O : Oracles) : Json :=
  match parse_json_response O.loads O.schemaRaw with
  | some j => j
  | none => schemaParseFailure O.schemaRaw

/-- The `except json.JSONDecodeError` dictionary of `generate_code`. -/
def codeParseFailure (raw : Str) : Json :=
  jobj [(errK, jstr failedParseCodeMsg), (rawK, jstr raw), (filesK, jobj []),
        (statusK, jstr errK)]

/-- `generate_code`: parse the coding agent output, or return the typed
failure dictionary (`it` is the call index, `currentCode` and `feedback`
the data interpolated into the prompt). -/
def generate_code (O : Oracles) (it : Nat) (currentCode feedback : Json) : Json :=
  match parse_json_response O.loads (O.codeRaw it currentCode feedback) with
  | some j => j
  | none => codeParseFailure (O.codeRaw it currentCode feedback)

/-- The `except json.JSONDecodeError` dictionary of `review_code`. -/
def reviewParseFailure (raw : Str) : Json :=
  jobj [(errK, jstr failedParseReviewMsg), (rawK, jstr raw), (approvedK, jbool false),
        (feedbackK, jstr reviewFailFeedback)]

/-- `review_code`: parse the reviewer agent output, or return the typed
failure dictionary. -/
def review_code (O : Oracles) (it : Nat) (generatedCode : Json) : Json :=
  match parse_json_response O.loads (O.reviewRaw it generatedCode) with
  | some j => j
  | none => reviewParseFailure (O.reviewRaw it generatedCode)

/-- `generate_documentation`: strip the raw documentation text and remove
reasoning spans when present; no fence unwrapping and no JSON parse. -/
def generate_documentation (O : Oracles) (code : Json) : Str :=
  let t := pyStrip (O.docRaw code)
  if containsSub thinkOpen t then pyStrip (stripThink t) else t

/-
============================================
AI_Engineer_Agent.py — convergence loop
============================================
-/

/-- One stage invocation, recorded with the data the claims need:
which stage ran, on which iteration, and on which inputs. -/
inductive Event where
  | schemaCall
  | codeCall (it : Nat) (currentCode feedback : Json)
  | reviewCall (it : Nat) (bundle : Json)
  | docCall (bundle : Json)

/-- The mutable state of the Step-2 while loop of `generate_ai_service`:
`current_code` (starts `{}`), `review_feedback` (starts `""`, later the
raw `.get("feedback_for_coder", "")` value), `iteration` (starts 0) and
`approved` (starts `False`, later the raw `.get("approved", False)`
value, consulted through Python truthiness). -/
structure LoopState where
  current_code : Json
  review_feedback : Json
  iteration : Nat
  approvedJ : Json

/-- Initial loop state. -/
def initState : LoopState :=
  { current_code := jobj [], review_feedback := jstr [], iteration := 0,
    approvedJ := jbool false }

/-- The `"error" in code_result and code_result.get("status") == "error"`
test guarding the `continue`. -/
def codeErrorContinue (codeResult : Json) : Bool :=
  codeResult.hasKey errK && isStr (codeResult.getD statusK jnull) errK

/-- One iteration of the while loop body: bump the counter, call the code
stage; on the error/continue test succeed, change nothing else; otherwise
replace the bundle wholesale with `.get("files", {})`, call the review
stage, and store its `approved`/`feedback_for_coder` fields. -/
def loopBody (O : Oracles) (s : LoopState) : LoopState × List Event :=
  let it := s.iteration + 1
  let codeResult := generate_code O it s.current_code s.review_feedback
  if codeErrorContinue codeResult then
    ({ s with iteration := it }, [Event.codeCall it s.current_code s.review_feedback])
  else
    let cc := codeResult.getD filesK (jobj [])
    let reviewResult := review_code O it cc
    ({ current_code := cc,
       review_feedback := reviewResult.getD feedbackK (jstr []),
       iteration := it,
       approvedJ := reviewResult.getD approvedK (jbool false) },
     [Event.codeCall it s.current_code s.review_feedback, Event.reviewCall it cc])

/-- Fuelled unrolling of `while not approved and iteration < max_iterations`.
Each executed body increments `iteration` by exactly one, so fuel
`N - iteration` makes the fuelled loop agree with the unbounded while loop
(`runLoop_eq_while` below certifies this). -/
def runLoopAux (O : Oracles) (N : Nat) : Nat → LoopState → LoopState × List Event
  | 0, s => (s, [])
  | fuel + 1, s =>
    if !truthy s.approvedJ && s.iteration < N then
      ((runLoopAux O N fuel (loopBody O s).1).1,
       (loopBody O s).2 ++ (runLoopAux O N fuel (loopBody O s).1).2)
    else (s, [])

/-- The Step-2 while loop of `generate_ai_service`, from an arbitrary
state (fuel `N` always suffices because `N - s.iteration ≤ N`). -/
def runLoop (O : Oracles) (N : Nat) (s : LoopState) : LoopState × List Event :=
  runLoopAux O N N s

/-
============================================
AI_Engineer_Agent.py — driver
============================================
-/

/-- The top-level error result `{"error": "Schema generation failed",
"details": file_schema}`. -/
def schemaFailResult (fileSchema : Json) : Json :=
  jobj [(errK, jstr schemaGenFailedMsg), (detailsK, fileSchema)]

/-- `generate_ai_service` (with `verbose=False` — the printing is pure
I/O): schema stage once; short-circuit on an `"error"` key; otherwise run
the convergence loop, generate documentation unconditionally, inject it
into the bundle under the reserved key, and assemble the result
dictionary. The second component is the trace of stage invocations.
Caution: the dictionary operations (`hasKey`, `getD`, `setKey`) are total
in this embedding, while in Python `"error" in file_schema`,
`file_schema.get(...)` and `current_code[...] = ...` raise `TypeError` or
`AttributeError` when the parsed value is not a dict, aborting the run
before later stages; theorems about this driver therefore carry
object-shape hypotheses (parser yields only JSON objects, final bundle is
an object) that delimit exactly the crash-free Python runs. -/
def generate_ai_service (O : Oracles) (N : Nat) : Json × List Event :=
  let fileSchema := generate_file_schema O
  if fileSchema.hasKey errK then
    (schemaFailResult fileSchema, [Event.schemaCall])
  else
    let loopOut := runLoop O N initState
    let s := loopOut.1
    let documentation := generate_documentation O s.current_code
    let files := s.current_code.setKey docK (jstr documentation)
    (jobj [(filesK, files),
           (schemaK, fileSchema),
           (iterationsK, jnum (s.iteration : Int)),
           (approvedK, s.approvedJ),
           (projectNameK, fileSchema.getD projectNameK (jstr aiServiceDefault))],
     Event.schemaCall :: (loopOut.2 ++ [Event.docCall s.current_code]))

/-- Number of code-stage invocations in a trace. -/
def countCode : List Event → Nat
  | [] => 0
  | Event.codeCall _ _ _ :: rest => countCode rest + 1
  | _ :: rest => countCode rest

/-- Number of review-stage invocations in a trace. -/
def countReview : List Event → Nat
  | [] => 0
  | Event.reviewCall _ _ :: rest => countReview rest + 1
  | _ :: rest => countReview rest

/-- The documentation-stage invocations of a trace, with their argument. -/
def docCalls : List Event → List Json
  | [] => []
  | Event.docCall b :: rest => b :: docCalls rest
  | _ :: rest => docCalls rest

/-
============================================
RequirementsAgent.py and DatabaseAgent.py
============================================
Both agents clean the raw text with strip + fence unwrapping only (no
reasoning-span removal), parse it, and post-process the parsed value
with Python `in` tests and `dict` assignments. Those two operations
raise `TypeError` when the parsed JSON is not a container resp. not a
dict, and only `json.JSONDecodeError` is caught — so the functions are
modelled in `Option`, `none` standing for an uncaught exception
escaping the function.
-/

/-- The strip + fence-unwrap cleaning shared by `analyze_requirements`
and `generate_schemas` (identical code in both files; note: no
`<think>` removal in these two agents). -/
def cleanFenced (responseText : Str) : Str :=
  let t := pyStrip responseText
  if containsSub fenceJson t then pyStrip (takeBefore fenceTicks (afterFirst fenceJson t))
  else if containsSub fenceTicks t then pyStrip (takeBefore fenceTicks (afterFirst fenceTicks t))
  else t

/-- Python `lit in x` for a string literal against an arbitrary value:
key membership on dicts, element membership on lists, substring test on
strings; `none` models the `TypeError` raised on the remaining types. -/
def pyIn (lit : Str) : Json → Option Bool
  | jobj kvs => some (kvs.any (fun p => p.1 = lit))
  | jarr xs => some (xs.any (fun x => isStr x lit))
  | jstr t => some (containsSub lit t)
  | _ => none

/-- Python `x[lit] = v`: dict assignment; `none` models the `TypeError`
raised when `x` is not a dict. -/
def pySetItem (x : Json) (lit : Str) (v : Json) : Option Json :=
  match x with
  | jobj kvs => some (jobj (setKV kvs lit v))
  | _ => none

/-- Key `"Features"`. -/
def featuresK : Str := "Features".toList

/-- Key `"Techstack"`. -/
def techstackK : Str := "Techstack".toList

/-- Key `"raw_output"`. -/
def rawOutputK : Str := "raw_output".toList

/-- Key `"schemas"`. -/
def schemasK : Str := "schemas".toList

/-- Key `"frontend"`. -/
def frontendK : Str := "frontend".toList

/-- Key `"backend"`. -/
def backendK : Str := "backend".toList

/-- Key `"database"`. -/
def databaseK : Str := "database".toList

/-- Key `"ai"`. -/
def aiK : Str := "ai".toList

/-- Key `"devops"`. -/
def devopsK : Str := "devops".toList

/-- The `"Failed to parse JSON: {str(e)}"` message, exception text
abstracted away. -/
def failedParseJsonMsg : Str := "Failed to parse JSON".toList

/-- The default Techstack object with the five empty category lists. -/
def emptyTechstack : Json :=
  jobj [(frontendK, jarr []), (backendK, jarr []), (databaseK, jarr []),
        (aiK, jarr []), (devopsK, jarr [])]

/-- `analyze_requirements` of `RequirementsAgent.py`, the raw model text
abstracted as the input `raw` and `json.loads` as `loads`. Returns
`none` when the Python code would let a `TypeError` escape. -/
def analyze_requirements (loads : Str → Option Json) (raw : Str) : Option Json :=
  match loads (cleanFenced raw) with
  | none =>
    some (jobj [(errK, jstr failedParseJsonMsg), (rawOutputK, jstr raw),
                (featuresK, jarr []), (techstackK, emptyTechstack)])
  | some parsed =>
    match pyIn featuresK parsed with
    | none => none
    | some hasF =>
      match (if hasF then some parsed else pySetItem parsed featuresK (jarr [])) with
      | none => none
      | some p1 =>
        match pyIn techstackK p1 with
        | none => none
        | some hasT =>
          if hasT then some p1 else pySetItem p1 techstackK emptyTechstack

/-- `generate_schemas` of `DatabaseAgent.py`, the raw model text
abstracted as the input `raw` and `json.loads` as `loads`. Returns
`none` when the Python code would let a `TypeError` escape. -/
def generate_schemas (loads : Str → Option Json) (raw : Str) : Option Json :=
  match loads (cleanFenced raw) with
  | none =>
    some (jobj [(errK, jstr failedParseJsonMsg), (rawOutputK, jstr raw),
                (schemasK, jobj [])])
  | some parsed =>
    match pyIn schemasK parsed with
    | none => none
    | some hasS => if hasS then some parsed else some (jobj [(schemasK, parsed)])

/-
============================================
Specification vocabulary and concrete inputs
============================================
-/

/-- `pat` occurs in `s` starting at index `i` (independent specification
of substring occurrence, used to state the non-greedy-removal claim). -/
def occursAt (pat s : Str) (i : Nat) : Prop := pat <+: s.drop i

instance (pat s : Str) (i : Nat) : Decidable (occursAt pat s i) :=
  inferInstanceAs (Decidable (pat <+: s.drop i))

/-- A `json.loads` that fails on every input. -/
def loadsNone : Str → Option Json := fun _ => none

/-- Concrete raw text standing for a schema-stage model answer. -/
def rawS : Str := "S".toList

/-- Concrete raw text standing for a code-stage model answer. -/
def rawC : Str := "C".toList

/-- Concrete raw text standing for a review-stage model answer. -/
def rawR : Str := "R".toList

/-- Concrete raw text standing for a documentation-stage model answer. -/
def rawD : Str := "D".toList

/-- Concrete one-character string. -/
def strX : Str := "x".toList

/-- Concrete one-character string. -/
def strY : Str := "y".toList

/-- Concrete one-character string. -/
def strZ : Str := "z".toList

/-- Oracle whose every model answer is unparseable. -/
def oracleAllFail : Oracles :=
  { loads := loadsNone
    schemaRaw := rawS
    codeRaw := fun _ _ _ => rawC
    reviewRaw := fun _ _ => rawR
    docRaw := fun _ => rawD }

/-- A `json.loads` that parses only the schema answer (to `{}`). -/
def loadsSchemaOnly : Str → Option Json :=
  fun s => if s = rawS then some (jobj []) else none

/-- Oracle with a parseable schema and unparseable code answers. -/
def oracleSchemaOnly : Oracles := { oracleAllFail with loads := loadsSchemaOnly }

/-- A `json.loads` that parses only the code answer (to `{}`). -/
def loadsCodeOnly : Str → Option Json :=
  fun s => if s = rawC then some (jobj []) else none

/-- Oracle whose code answers parse but whose review answers do not. -/
def oracleReviewFail : Oracles := { oracleAllFail with loads := loadsCodeOnly }

/-- A `json.loads` where the code answer parses to `{}` and the review
answer parses to `{"approved": true}`. -/
def loadsApprove : Str → Option Json :=
  fun s =>
    if s = rawC then some (jobj [])
    else if s = rawR then some (jobj [(approvedK, jbool true)])
    else none

/-- Oracle whose first review verdict approves the code. -/
def oracleApprove : Oracles := { oracleAllFail with loads := loadsApprove }

/-- A `json.loads` returning the JSON array `[1, 2]` for every input. -/
def loadsArr12 : Str → Option Json := fun _ => some (jarr [jnum 1, jnum 2])

/-- A `json.loads` returning the JSON array `["Features", "Techstack"]`
for every input. -/
def loadsFeatTech : Str → Option Json :=
  fun _ => some (jarr [jstr featuresK, jstr techstackK])

/-- A `json.loads` returning the JSON array `["schemas"]` for every input. -/
def loadsSchemasArr : Str → Option Json := fun _ => some (jarr [jstr schemasK])

/-
============================================
Helper lemmas: substring search
============================================
-/

theorem splitFirst_eq (pat : Str) :
    ∀ s a b, splitFirst pat s = some (a, b) → s = a ++ pat ++ b := by
  intro s
  induction s with
  | nil =>
    intro a b h
    simp only [splitFirst] at h
    split at h
    · rename_i hp
      have hpre : pat <+: ([] : Str) := List.isPrefixOf_iff_prefix.mp hp
      have hpn : pat = [] := List.prefix_nil.mp hpre
      cases h
      simp [hpn]
    · cases h
  | cons c cs ih =>
    intro a b h
    simp only [splitFirst] at h
    split at h
    · rename_i hp
      have hpre : pat <+: c :: cs := List.isPrefixOf_iff_prefix.mp hp
      obtain ⟨t, ht⟩ := hpre
      cases h
      rw [← ht, List.drop_left]
      simp
    · cases hrec : splitFirst pat cs with
      | none => rw [hrec] at h; cases h
      | some ab =>
        obtain ⟨a1, b1⟩ := ab
        rw [hrec] at h
        cases h
        have hcs := ih _ _ hrec
        simp [hcs]

theorem splitFirst_shorter (pat : Str) (hpat : pat ≠ []) {s a b : Str}
    (h : splitFirst pat s = some (a, b)) : b.length < s.length := by
  have hs := splitFirst_eq pat s a b h
  have hlen : s.length = a.length + (pat.length + b.length) := by
    rw [hs]; simp
  have hpos : 0 < pat.length := List.length_pos.mpr hpat
  omega

theorem splitFirst_append_self (pat : Str) (hpat : pat ≠ []) (b : Str) :
    splitFirst pat (pat ++ b) = some ([], b) := by
  cases hp : pat with
  | nil => exact absurd hp hpat
  | cons p pr =>
    rw [List.cons_append]
    simp only [splitFirst]
    rw [if_pos]
    · rw [← List.cons_append, List.drop_left]
    · rw [← List.cons_append]
      exact List.isPrefixOf_iff_prefix.mpr (List.prefix_append _ _)

theorem splitFirst_of_first (pat : Str) (hpat : pat ≠ []) :
    ∀ a b, (∀ i, i < a.length → ¬ occursAt pat (a ++ pat ++ b) i) →
      splitFirst pat (a ++ pat ++ b) = some (a, b) := by
  intro a
  induction a with
  | nil =>
    intro b _
    rw [List.nil_append]
    exact splitFirst_append_self pat hpat b
  | cons x a1 ih =>
    intro b h
    have hrec : splitFirst pat (a1 ++ pat ++ b) = some (a1, b) := by
      apply ih
      intro i hi
      have hx := h (i + 1) (by simp only [List.length_cons]; omega)
      simpa [occursAt] using hx
    have hnp : ¬ pat.isPrefixOf (x :: (a1 ++ pat ++ b)) = true := by
      intro hp
      have h0 := h 0 (by simp)
      exact h0 (by simpa [occursAt] using List.isPrefixOf_iff_prefix.mp hp)
    rw [List.cons_append, List.cons_append]
    simp only [splitFirst]
    rw [if_neg hnp, hrec]

theorem splitFirst_none_of_no_occur (pat : Str) :
    ∀ s, (∀ i, ¬ occursAt pat s i) → splitFirst pat s = none := by
  intro s
  induction s with
  | nil =>
    intro h
    simp only [splitFirst]
    rw [if_neg]
    intro hp
    exact h 0 (by simpa [occursAt] using List.isPrefixOf_iff_prefix.mp hp)
  | cons c cs ih =>
    intro h
    simp only [splitFirst]
    rw [if_neg, ih]
    · intro i
      have hx := h (i + 1)
      simpa [occursAt] using hx
    · intro hp
      exact h 0 (by simpa [occursAt] using List.isPrefixOf_iff_prefix.mp hp)

theorem not_occursAt_of_long (pat s : Str) (hpat : pat ≠ []) {j : Nat}
    (hj : s.length < j) : ¬ occursAt pat s j := by
  intro h
  have h2 := h.length_le
  have h3 : (s.drop j).length = s.length - j := List.length_drop j s
  have hpos : 0 < pat.length := List.length_pos.mpr hpat
  omega

/-
============================================
Helper lemmas: reasoning-span removal
============================================
-/

theorem stripThinkAux_fuel :
    ∀ f g s, s.length ≤ f → s.length ≤ g → stripThinkAux f s = stripThinkAux g s := by
  intro f
  induction f with
  | zero =>
    intro g s hf _
    have hs : s = [] := List.length_eq_zero.mp (Nat.le_zero.mp hf)
    subst hs
    cases g with
    | zero => rfl
    | succ g1 => simp [stripThinkAux, show splitFirst thinkOpen [] = none by decide]
  | succ f1 ih =>
    intro g s hf hg
    cases g with
    | zero =>
      have hs : s = [] := List.length_eq_zero.mp (Nat.le_zero.mp hg)
      subst hs
      simp [stripThinkAux, show splitFirst thinkOpen [] = none by decide]
    | succ g1 =>
      cases h1 : splitFirst thinkOpen s with
      | none => simp only [stripThinkAux, h1]
      | some ar =>
        obtain ⟨a, rest⟩ := ar
        cases h2 : splitFirst thinkClose rest with
        | none => simp only [stripThinkAux, h1, h2]
        | some bc =>
          obtain ⟨b, c⟩ := bc
          simp only [stripThinkAux, h1, h2]
          have hr : rest.length < s.length := splitFirst_shorter thinkOpen (by decide) h1
          have hc : c.length < rest.length := splitFirst_shorter thinkClose (by decide) h2
          rw [ih g1 c (by omega) (by omega)]

theorem stripThink_of_span {s a rest b c : Str}
    (h1 : splitFirst thinkOpen s = some (a, rest))
    (h2 : splitFirst thinkClose rest = some (b, c)) :
    stripThink s = a ++ stripThink c := by
  unfold stripThink
  have hr : rest.length < s.length := splitFirst_shorter thinkOpen (by decide) h1
  have hc : c.length < rest.length := splitFirst_shorter thinkClose (by decide) h2
  obtain ⟨m, hm⟩ : ∃ m, s.length = m + 1 := ⟨s.length - 1, by omega⟩
  rw [hm]
  simp only [stripThinkAux, h1, h2]
  rw [stripThinkAux_fuel m c.length c (by omega) (le_refl _)]

theorem stripThink_of_noclose {s a rest : Str}
    (h1 : splitFirst thinkOpen s = some (a, rest))
    (h2 : splitFirst thinkClose rest = none) :
    stripThink s = s := by
  unfold stripThink
  have hr : rest.length < s.length := splitFirst_shorter thinkOpen (by decide) h1
  obtain ⟨m, hm⟩ : ∃ m, s.length = m + 1 := ⟨s.length - 1, by omega⟩
  rw [hm]
  simp only [stripThinkAux, h1, h2]

theorem stripThink_of_noopen {s : Str} (h : splitFirst thinkOpen s = none) :
    stripThink s = s := by
  unfold stripThink
  cases hl : s.length with
  | zero => rfl
  | succ m => simp only [stripThinkAux, h]

/-
============================================
Helper lemmas: association lists
============================================
-/

theorem any_key_eq_isSome (k : Str) :
    ∀ kvs : List (Str × Json),
      (kvs.any fun p => decide (p.1 = k)) = (lookupKV kvs k).isSome := by
  intro kvs
  induction kvs with
  | nil => rfl
  | cons p rest ih =>
    obtain ⟨k1, v1⟩ := p
    by_cases h1 : k1 = k
    · subst h1
      simp [List.any_cons, lookupKV]
    · simp [List.any_cons, h1, lookupKV, ih]

theorem lookupKV_setKV_self (k : Str) (v : Json) :
    ∀ kvs : List (Str × Json), lookupKV (setKV kvs k v) k = some v := by
  intro kvs
  induction kvs with
  | nil => simp [setKV, lookupKV]
  | cons p rest ih =>
    obtain ⟨k1, v1⟩ := p
    by_cases h1 : k1 = k
    · simp [setKV, h1, lookupKV]
    · simp [setKV, h1, lookupKV, ih]

theorem lookupKV_setKV_other (k k' : Str) (hne : k ≠ k') (v : Json) :
    ∀ kvs : List (Str × Json), lookupKV (setKV kvs k' v) k = lookupKV kvs k := by
  have hne' : ¬ k' = k := fun h => hne h.symm
  intro kvs
  induction kvs with
  | nil => simp [setKV, lookupKV, hne']
  | cons p rest ih =>
    obtain ⟨k1, v1⟩ := p
    by_cases h1 : k1 = k'
    · subst h1
      simp [setKV, lookupKV, hne']
    · simp [setKV, h1, lookupKV, ih]

theorem getD_setKey_self (kvs : List (Str × Json)) (k : Str) (v d : Json) :
    (Json.setKey (jobj kvs) k v).getD k d = v := by
  simp [Json.setKey, Json.getD, Json.getKey, lookupKV_setKV_self]

theorem hasKey_setKey_self (kvs : List (Str × Json)) (k : Str) (v : Json) :
    (Json.setKey (jobj kvs) k v).hasKey k = true := by
  simp [Json.setKey, Json.hasKey, Json.getKey, lookupKV_setKV_self]

theorem hasKey_setKey_other (kvs : List (Str × Json)) (k k' : Str)
    (hne : k ≠ k') (v : Json) :
    (Json.setKey (jobj kvs) k' v).hasKey k = (jobj kvs).hasKey k := by
  simp [Json.setKey, Json.hasKey, Json.getKey, lookupKV_setKV_other k k' hne]

/-
============================================
Helper lemmas: the convergence loop
============================================
-/

theorem and_decide_lt {b : Bool} {m n : Nat} (h : (b && decide (m < n)) = true) :
    m < n := by
  cases b with
  | false => simp at h
  | true => simpa using h

theorem loopBody_iteration (O : Oracles) (s : LoopState) :
    (loopBody O s).1.iteration = s.iteration + 1 := by
  simp only [loopBody]
  split <;> rfl

theorem loopBody_countCode (O : Oracles) (s : LoopState) :
    countCode (loopBody O s).2 = 1 := by
  simp only [loopBody]
  split <;> rfl

theorem loopBody_docCalls (O : Oracles) (s : LoopState) :
    docCalls (loopBody O s).2 = [] := by
  simp only [loopBody]
  split <;> rfl

theorem loopBody_head (O : Oracles) (s : LoopState) :
    (loopBody O s).2.head? =
      some (Event.codeCall (s.iteration + 1) s.current_code s.review_feedback) := by
  simp only [loopBody]
  split <;> rfl

theorem countCode_append (a b : List Event) :
    countCode (a ++ b) = countCode a + countCode b := by
  induction a with
  | nil => simp [countCode]
  | cons e rest ih => cases e <;> simp [countCode, ih] <;> omega

theorem countReview_append (a b : List Event) :
    countReview (a ++ b) = countReview a + countReview b := by
  induction a with
  | nil => simp [countReview]
  | cons e rest ih => cases e <;> simp [countReview, ih] <;> omega

theorem docCalls_append (a b : List Event) :
    docCalls (a ++ b) = docCalls a ++ docCalls b := by
  induction a with
  | nil => simp [docCalls]
  | cons e rest ih => cases e <;> simp [docCalls, ih]

theorem loopBody_codeFail (O : Oracles) (s : LoopState)
    (h : O.loads (cleanResponse
      (O.codeRaw (s.iteration + 1) s.current_code s.review_feedback)) = none) :
    loopBody O s = ({ s with iteration := s.iteration + 1 },
      [Event.codeCall (s.iteration + 1) s.current_code s.review_feedback]) := by
  have hg : generate_code O (s.iteration + 1) s.current_code s.review_feedback
      = codeParseFailure (O.codeRaw (s.iteration + 1) s.current_code s.review_feedback) := by
    unfold generate_code parse_json_response
    rw [h]
  have hcc : codeErrorContinue (codeParseFailure
      (O.codeRaw (s.iteration + 1) s.current_code s.review_feedback)) = true := rfl
  simp only [loopBody, hg, hcc, if_true]

theorem loopBody_success (O : Oracles) (s : LoopState)
    (h : codeErrorContinue
      (generate_code O (s.iteration + 1) s.current_code s.review_feedback) = false) :
    loopBody O s =
      ({ current_code :=
           (generate_code O (s.iteration + 1) s.current_code s.review_feedback).getD
             filesK (jobj []),
         review_feedback :=
           (review_code O (s.iteration + 1)
             ((generate_code O (s.iteration + 1) s.current_code s.review_feedback).getD
               filesK (jobj []))).getD feedbackK (jstr []),
         iteration := s.iteration + 1,
         approvedJ :=
           (review_code O (s.iteration + 1)
             ((generate_code O (s.iteration + 1) s.current_code s.review_feedback).getD
               filesK (jobj []))).getD approvedK (jbool false) },
       [Event.codeCall (s.iteration + 1) s.current_code s.review_feedback,
        Event.reviewCall (s.iteration + 1)
          ((generate_code O (s.iteration + 1) s.current_code s.review_feedback).getD
            filesK (jobj []))]) := by
  simp only [loopBody, h, Bool.false_eq_true, if_false]

theorem runLoopAux_fuel (O : Oracles) (N : Nat) :
    ∀ f g s, N - s.iteration ≤ f → N - s.iteration ≤ g →
      runLoopAux O N f s = runLoopAux O N g s := by
  intro f
  induction f with
  | zero =>
    intro g s hf _
    cases g with
    | zero => rfl
    | succ g1 =>
      have hlt : ¬ s.iteration < N := by omega
      simp [runLoopAux, hlt]
  | succ f1 ih =>
    intro g s hf hg
    cases g with
    | zero =>
      have hlt : ¬ s.iteration < N := by omega
      simp [runLoopAux, hlt]
    | succ g1 =>
      simp only [runLoopAux]
      by_cases hc : (!truthy s.approvedJ && decide (s.iteration < N)) = true
      · simp only [hc, if_true]
        have hlt : s.iteration < N := and_decide_lt hc
        have hit := loopBody_iteration O s
        rw [ih g1 (loopBody O s).1 (by rw [hit]; omega) (by rw [hit]; omega)]
      · rw [if_neg hc, if_neg hc]

theorem runLoop_eq_while (O : Oracles) (N : Nat) (s : LoopState) :
    runLoop O N s =
      if !truthy s.approvedJ && s.iteration < N then
        ((runLoop O N (loopBody O s).1).1,
         (loopBody O s).2 ++ (runLoop O N (loopBody O s).1).2)
      else (s, []) := by
  unfold runLoop
  cases N with
  | zero =>
    have hlt : ¬ s.iteration < 0 := by omega
    simp [runLoopAux, hlt]
  | succ n =>
    by_cases hc : (!truthy s.approvedJ && decide (s.iteration < n + 1)) = true
    · have hlt : s.iteration < n + 1 := and_decide_lt hc
      have hit := loopBody_iteration O s
      conv_lhs => rw [runLoopAux]
      rw [if_pos hc, if_pos hc,
        runLoopAux_fuel O (n + 1) n (n + 1) (loopBody O s).1
          (by rw [hit]; omega) (by rw [hit]; omega)]
    · conv_lhs => rw [runLoopAux]
      rw [if_neg hc, if_neg hc]

theorem countCode_runLoopAux (O : Oracles) (N : Nat) :
    ∀ f s, countCode (runLoopAux O N f s).2 ≤ N - s.iteration := by
  intro f
  induction f with
  | zero => intro s; simp [runLoopAux, countCode]
  | succ f1 ih =>
    intro s
    by_cases hc : (!truthy s.approvedJ && decide (s.iteration < N)) = true
    · simp only [runLoopAux, hc, if_true]
      rw [countCode_append, loopBody_countCode]
      have h2 := ih (loopBody O s).1
      rw [loopBody_iteration] at h2
      have hlt : s.iteration < N := and_decide_lt hc
      omega
    · simp only [runLoopAux]
      rw [if_neg hc]
      simp [countCode]

theorem docCalls_runLoopAux (O : Oracles) (N : Nat) :
    ∀ f s, docCalls (runLoopAux O N f s).2 = [] := by
  intro f
  induction f with
  | zero => intro s; simp [runLoopAux, docCalls]
  | succ f1 ih =>
    intro s
    by_cases hc : (!truthy s.approvedJ && decide (s.iteration < N)) = true
    · simp only [runLoopAux, hc, if_true]
      rw [docCalls_append, loopBody_docCalls, ih]
      rfl
    · simp only [runLoopAux]
      rw [if_neg hc]
      simp [docCalls]

theorem runLoopAux_allfail (O : Oracles) (N : Nat)
    (hfail : ∀ it cc fb, O.loads (cleanResponse (O.codeRaw it cc fb)) = none) :
    ∀ f s, N - s.iteration ≤ f → s.approvedJ = jbool false →
      (runLoopAux O N f s).1 = { s with iteration := max s.iteration N } ∧
      countCode (runLoopAux O N f s).2 = N - s.iteration ∧
      countReview (runLoopAux O N f s).2 = 0 := by
  intro f
  induction f with
  | zero =>
    intro s hf happ
    have hge : N ≤ s.iteration := by omega
    have hm : max s.iteration N = s.iteration := Nat.max_eq_left hge
    refine ⟨?_, ?_, ?_⟩
    · show s = _
      rw [hm]
    · show countCode [] = N - s.iteration
      simp [countCode]
      omega
    · rfl
  | succ f1 ih =>
    intro s hf happ
    by_cases hlt : s.iteration < N
    · have hg : (!truthy s.approvedJ && decide (s.iteration < N)) = true := by
        rw [happ]
        simp [truthy, hlt]
      simp only [runLoopAux, hg, if_true]
      rw [loopBody_codeFail O s (hfail _ _ _)]
      have ih1 := ih { s with iteration := s.iteration + 1 }
        (by show N - (s.iteration + 1) ≤ f1; omega) happ
      obtain ⟨ihs, ihc, ihr⟩ := ih1
      refine ⟨?_, ?_, ?_⟩
      · rw [ihs]
        have hmx : max (s.iteration + 1) N = max s.iteration N := by omega
        rw [hmx]
      · rw [countCode_append, ihc]
        simp only [countCode]
        omega
      · rw [countReview_append, ihr]
        rfl
    · have hg : (!truthy s.approvedJ && decide (s.iteration < N)) = false := by
        simp [decide_eq_false hlt]
      simp only [runLoopAux, hg, Bool.false_eq_true, if_false]
      have hm : max s.iteration N = s.iteration := Nat.max_eq_left (by omega)
      refine ⟨?_, ?_, ?_⟩
      · show s = _
        rw [hm]
      · show countCode [] = N - s.iteration
        simp [countCode]
        omega
      · rfl

theorem runLoop_of_approved (O : Oracles) (N : Nat) (s : LoopState)
    (h : truthy s.approvedJ = true) : runLoop O N s = (s, []) := by
  rw [runLoop_eq_while]
  rw [if_neg]
  simp [h]

/-
============================================
Claim theorems
============================================
-/

/-- C1: for every ceiling `N ≥ 1`, the convergence loop of
`generate_ai_service` performs at most `N` code-generation attempts; and
when the code stage yields an unparseable answer (a `CodeError`) on every
iteration, the loop completes in exactly `N` iterations with
`approved = False` (and exactly `N` code attempts). -/
theorem claim_C1 (O : Oracles) (N : Nat) (hN : 1 ≤ N) :
    countCode (generate_ai_service O N).2 ≤ N ∧
    ((∀ it cc fb, O.loads (cleanResponse (O.codeRaw it cc fb)) = none) →
      (runLoop O N initState).1.iteration = N ∧
      truthy (runLoop O N initState).1.approvedJ = false ∧
      countCode (runLoop O N initState).2 = N) := by
  constructor
  · by_cases hs : (generate_file_schema O).hasKey errK = true
    · simp only [generate_ai_service, hs, if_true]
      simp [countCode]
    · simp only [generate_ai_service]
      rw [if_neg hs]
      simp only [countCode, countCode_append]
      have hb : countCode (runLoop O N initState).2 ≤ N := by
        have h := countCode_runLoopAux O N N initState
        show countCode (runLoopAux O N N initState).2 ≤ N
        have h0 : N - initState.iteration = N := by
          show N - 0 = N
          omega
        rw [h0] at h
        exact h
      omega
  · intro hfail
    have h := runLoopAux_allfail O N hfail N initState
      (by show N - 0 ≤ N; omega) rfl
    obtain ⟨h1, h2, h3⟩ := h
    refine ⟨?_, ?_, ?_⟩
    · show (runLoopAux O N N initState).1.iteration = N
      rw [h1]
      show max 0 N = N
      omega
    · show truthy (runLoopAux O N N initState).1.approvedJ = false
      rw [h1]
      rfl
    · show countCode (runLoopAux O N N initState).2 = N
      rw [h2]
      show N - 0 = N
      omega

/-- Witness for C1: the all-failing oracle with ceiling 2 performs at most
2 (indeed exactly 2) code attempts and ends unapproved. -/
theorem claim_C1_witness :
    (1 ≤ 2 ∧ countCode (generate_ai_service oracleAllFail 2).2 ≤ 2) ∧
    ((runLoop oracleAllFail 2 initState).1.iteration = 2 ∧
     truthy (runLoop oracleAllFail 2 initState).1.approvedJ = false ∧
     countCode (runLoop oracleAllFail 2 initState).2 = 2) :=
  ⟨⟨by omega, (claim_C1 oracleAllFail 2 (by omega)).1⟩,
   (claim_C1 oracleAllFail 2 (by omega)).2 (fun _ _ _ => rfl)⟩

/-- C2: on an iteration whose code-stage answer fails to parse
(`CodeError`), the review stage is not invoked during that iteration —
the only recorded event is the code call — and the current CodeBundle
(and stored feedback) retain the values they had at the end of the
previous iteration; only the counter advances. -/
theorem claim_C2 (O : Oracles) (s : LoopState)
    (h : O.loads (cleanResponse
      (O.codeRaw (s.iteration + 1) s.current_code s.review_feedback)) = none) :
    (loopBody O s).1.current_code = s.current_code ∧
    (loopBody O s).1.review_feedback = s.review_feedback ∧
    (loopBody O s).1.iteration = s.iteration + 1 ∧
    countReview (loopBody O s).2 = 0 ∧
    (loopBody O s).2 =
      [Event.codeCall (s.iteration + 1) s.current_code s.review_feedback] := by
  rw [loopBody_codeFail O s h]
  exact ⟨rfl, rfl, rfl, rfl, rfl⟩

/-- Witness for C2 at the all-failing oracle and the initial state. -/
theorem claim_C2_witness :
    (loopBody oracleAllFail initState).1.current_code = initState.current_code ∧
    (loopBody oracleAllFail initState).1.review_feedback = initState.review_feedback ∧
    (loopBody oracleAllFail initState).1.iteration = initState.iteration + 1 ∧
    countReview (loopBody oracleAllFail initState).2 = 0 ∧
    (loopBody oracleAllFail initState).2 =
      [Event.codeCall (initState.iteration + 1) initState.current_code
        initState.review_feedback] :=
  claim_C2 oracleAllFail initState rfl

/-- C3 counterexample: with an oracle whose code answers parse to `{}` but
whose review answers never parse, the trace of a 2-iteration run shows the
code call of iteration 2 receiving the fixed placeholder feedback
`"Review parsing failed, please regenerate code"` — not the empty string
the claim asserts. -/
theorem claim_C3_counterexample :
    (runLoop oracleReviewFail 2 initState).2 =
      [Event.codeCall 1 (jobj []) (jstr []),
       Event.reviewCall 1 (jobj []),
       Event.codeCall 2 (jobj []) (jstr reviewFailFeedback),
       Event.reviewCall 2 (jobj [])] ∧
    reviewFailFeedback ≠ [] := by
  constructor
  · rfl
  · decide

/-- C3 (amended): whenever the review stage returns a `ReviewError`, the
loop sets `approved` to `False` and sets the feedback threaded into the
next code-generation call to the fixed placeholder
`"Review parsing failed, please regenerate code"` — not the empty string;
and when the verdict is approved the loop exits at once, so no feedback is
threaded into any later code-generation call. -/
theorem claim_C3 (O : Oracles) (s : LoopState)
    (hcode : codeErrorContinue
      (generate_code O (s.iteration + 1) s.current_code s.review_feedback) = false)
    (hrev : O.loads (cleanResponse (O.reviewRaw (s.iteration + 1)
      ((generate_code O (s.iteration + 1) s.current_code s.review_feedback).getD
        filesK (jobj [])))) = none) :
    (loopBody O s).1.approvedJ = jbool false ∧
    (loopBody O s).1.review_feedback = jstr reviewFailFeedback ∧
    (loopBody O ((loopBody O s).1)).2.head? =
      some (Event.codeCall (s.iteration + 2) (loopBody O s).1.current_code
        (jstr reviewFailFeedback)) ∧
    (∀ (N : Nat) (s' : LoopState), truthy s'.approvedJ = true →
      runLoop O N s' = (s', [])) := by
  have hrc : review_code O (s.iteration + 1)
      ((generate_code O (s.iteration + 1) s.current_code s.review_feedback).getD
        filesK (jobj []))
      = reviewParseFailure (O.reviewRaw (s.iteration + 1)
          ((generate_code O (s.iteration + 1) s.current_code s.review_feedback).getD
            filesK (jobj []))) := by
    unfold review_code parse_json_response
    rw [hrev]
  rw [loopBody_success O s hcode, hrc]
  refine ⟨rfl, rfl, ?_, ?_⟩
  · rw [loopBody_head]
    rfl
  · intro N s' h
    exact runLoop_of_approved O N s' h

/-- Witness for C3 (amended) at the review-failing oracle. -/
theorem claim_C3_witness :
    (loopBody oracleReviewFail initState).1.approvedJ = jbool false ∧
    (loopBody oracleReviewFail initState).1.review_feedback = jstr reviewFailFeedback ∧
    (loopBody oracleReviewFail ((loopBody oracleReviewFail initState).1)).2.head? =
      some (Event.codeCall 2 (loopBody oracleReviewFail initState).1.current_code
        (jstr reviewFailFeedback)) ∧
    runLoop oracleReviewFail 5 { initState with approvedJ := jbool true } =
      ({ initState with approvedJ := jbool true }, []) := by
  obtain ⟨h1, h2, h3, h4⟩ := claim_C3 oracleReviewFail initState rfl rfl
  exact ⟨h1, h2, h3, h4 5 _ rfl⟩

/-- C6: if the loop is running (not yet approved, counter below the
ceiling), the code stage parses, and the review verdict of iteration
`k = s.iteration + 1 ≤ N` is approved, then the loop stops at iteration
`k`: its trace is exactly the code call and review call of iteration `k`
(no later calls), and the final iteration count is `k`. -/
theorem claim_C6 (O : Oracles) (N : Nat) (s : LoopState)
    (hrun : truthy s.approvedJ = false) (hk : s.iteration < N)
    (hcode : codeErrorContinue
      (generate_code O (s.iteration + 1) s.current_code s.review_feedback) = false)
    (happ : truthy ((review_code O (s.iteration + 1)
      ((generate_code O (s.iteration + 1) s.current_code s.review_feedback).getD
        filesK (jobj []))).getD approvedK (jbool false)) = true) :
    (runLoop O N s).1.iteration = s.iteration + 1 ∧
    truthy (runLoop O N s).1.approvedJ = true ∧
    (runLoop O N s).2 =
      [Event.codeCall (s.iteration + 1) s.current_code s.review_feedback,
       Event.reviewCall (s.iteration + 1)
         ((generate_code O (s.iteration + 1) s.current_code s.review_feedback).getD
           filesK (jobj []))] := by
  have hguard : (!truthy s.approvedJ && decide (s.iteration < N)) = true := by
    rw [hrun]
    simp [hk]
  have hstep := runLoop_eq_while O N s
  rw [if_pos hguard, loopBody_success O s hcode] at hstep
  have hra := runLoop_of_approved O N
    { current_code :=
        (generate_code O (s.iteration + 1) s.current_code s.review_feedback).getD
          filesK (jobj []),
      review_feedback :=
        (review_code O (s.iteration + 1)
          ((generate_code O (s.iteration + 1) s.current_code s.review_feedback).getD
            filesK (jobj []))).getD feedbackK (jstr []),
      iteration := s.iteration + 1,
      approvedJ :=
        (review_code O (s.iteration + 1)
          ((generate_code O (s.iteration + 1) s.current_code s.review_feedback).getD
            filesK (jobj []))).getD approvedK (jbool false) } happ
  rw [hra] at hstep
  rw [hstep]
  exact ⟨rfl, happ, rfl⟩

/-- Witness for C6: with the approving oracle and ceiling 3 the loop stops
after one code call and one review call. -/
theorem claim_C6_witness :
    (runLoop oracleApprove 3 initState).1.iteration = 1 ∧
    truthy (runLoop oracleApprove 3 initState).1.approvedJ = true ∧
    (runLoop oracleApprove 3 initState).2 =
      [Event.codeCall 1 (jobj []) (jstr []),
       Event.reviewCall 1 (jobj [])] := by
  obtain ⟨h1, h2, h3⟩ := claim_C6 oracleApprove 3 initState rfl (by decide) rfl rfl
  exact ⟨h1, h2, h3⟩

/-- C7: when the schema-stage answer fails to parse, `generate_ai_service`
returns the structured top-level error result carrying the schema failure,
invokes no code, review or documentation stage, and (being a total
function of the oracle) throws nothing past the driver boundary. -/
theorem claim_C7 (O : Oracles) (N : Nat)
    (h : O.loads (cleanResponse O.schemaRaw) = none) :
    generate_ai_service O N =
      (schemaFailResult (schemaParseFailure O.schemaRaw), [Event.schemaCall]) ∧
    (generate_ai_service O N).1.hasKey errK = true ∧
    countCode (generate_ai_service O N).2 = 0 ∧
    countReview (generate_ai_service O N).2 = 0 ∧
    docCalls (generate_ai_service O N).2 = [] := by
  have hschema : generate_file_schema O = schemaParseFailure O.schemaRaw := by
    unfold generate_file_schema parse_json_response
    rw [h]
  have hhk : (schemaParseFailure O.schemaRaw).hasKey errK = true := rfl
  have hmain : generate_ai_service O N =
      (schemaFailResult (schemaParseFailure O.schemaRaw), [Event.schemaCall]) := by
    simp only [generate_ai_service, hschema, hhk, if_true]
  rw [hmain]
  exact ⟨rfl, rfl, rfl, rfl, rfl⟩

/-- Witness for C7 at the all-failing oracle with ceiling 1. -/
theorem claim_C7_witness :
    generate_ai_service oracleAllFail 1 =
      (schemaFailResult (schemaParseFailure oracleAllFail.schemaRaw),
       [Event.schemaCall]) ∧
    (generate_ai_service oracleAllFail 1).1.hasKey errK = true ∧
    countCode (generate_ai_service oracleAllFail 1).2 = 0 ∧
    countReview (generate_ai_service oracleAllFail 1).2 = 0 ∧
    docCalls (generate_ai_service oracleAllFail 1).2 = [] :=
  claim_C7 oracleAllFail 1 rfl

/-- C8: when the schema stage succeeds, the documentation stage is invoked
exactly once, on the CodeBundle the convergence loop ended with (even when
that bundle is empty or unapproved); its output is injected under the
reserved `"documentation.md"` key, overwriting any existing entry at that
path (last-write-wins), and the returned result is a RunResult carrying a
`"files"` entry with that documentation — not an error. The hypotheses
delimit the crash-free Python runs: `hloads` (the parser yields only JSON
objects, as every failure dict already is) keeps each `in`/`.get` in the
driver and loop on dicts — a schema or stage answer parsing to an array
or scalar would make Python raise `TypeError`/`AttributeError` (e.g. at
`file_schema.get("project_name", ...)`) before the documentation stage —
and `hobj` is required by the injection assignment itself. -/
theorem claim_C8 (O : Oracles) (N : Nat)
    (hloads : ∀ t j, O.loads t = some j → j.isObj = true)
    (hschema : (generate_file_schema O).hasKey errK = false)
    (hobj : (runLoop O N initState).1.current_code.isObj = true) :
    docCalls (generate_ai_service O N).2 =
      [(runLoop O N initState).1.current_code] ∧
    ((generate_ai_service O N).1.getD filesK jnull).getD docK jnull =
      jstr (generate_documentation O (runLoop O N initState).1.current_code) ∧
    ((generate_ai_service O N).1.getD filesK jnull).hasKey docK = true ∧
    (generate_ai_service O N).1.hasKey errK = false ∧
    (generate_ai_service O N).1.hasKey filesK = true := by
  have hschema' : ¬ ((generate_file_schema O).hasKey errK = true) := by
    rw [hschema]
    simp
  have hmain : generate_ai_service O N =
      (jobj [(filesK, ((runLoop O N initState).1.current_code).setKey docK
                (jstr (generate_documentation O (runLoop O N initState).1.current_code))),
             (schemaK, generate_file_schema O),
             (iterationsK, jnum ((runLoop O N initState).1.iteration : Int)),
             (approvedK, (runLoop O N initState).1.approvedJ),
             (projectNameK, (generate_file_schema O).getD projectNameK
               (jstr aiServiceDefault))],
       Event.schemaCall :: ((runLoop O N initState).2 ++
         [Event.docCall (runLoop O N initState).1.current_code])) := by
    simp only [generate_ai_service]
    rw [if_neg hschema']
  obtain ⟨kvs, hkvs⟩ : ∃ kvs, (runLoop O N initState).1.current_code = jobj kvs := by
    cases hcc : (runLoop O N initState).1.current_code
    case jobj kvs => exact ⟨kvs, rfl⟩
    all_goals rw [hcc] at hobj
    all_goals simp [Json.isObj] at hobj
  rw [hmain]
  have hd : docCalls (runLoop O N initState).2 = [] := docCalls_runLoopAux O N N initState
  refine ⟨?_, ?_, ?_, rfl, rfl⟩
  · simp [docCalls, docCalls_append, hd]
  · show (((runLoop O N initState).1.current_code).setKey docK
      (jstr (generate_documentation O (runLoop O N initState).1.current_code))).getD
        docK jnull =
      jstr (generate_documentation O (runLoop O N initState).1.current_code)
    rw [hkvs]
    exact getD_setKey_self kvs docK _ jnull
  · show (((runLoop O N initState).1.current_code).setKey docK
      (jstr (generate_documentation O (runLoop O N initState).1.current_code))).hasKey
        docK = true
    rw [hkvs]
    exact hasKey_setKey_self kvs docK _

/-- Witness for C8: parseable schema, unparseable code answers, ceiling 1 —
the empty bundle still gets its documentation entry. -/
theorem claim_C8_witness :
    docCalls (generate_ai_service oracleSchemaOnly 1).2 =
      [(runLoop oracleSchemaOnly 1 initState).1.current_code] ∧
    ((generate_ai_service oracleSchemaOnly 1).1.getD filesK jnull).getD docK jnull =
      jstr (generate_documentation oracleSchemaOnly
        (runLoop oracleSchemaOnly 1 initState).1.current_code) ∧
    ((generate_ai_service oracleSchemaOnly 1).1.getD filesK jnull).hasKey docK = true ∧
    (generate_ai_service oracleSchemaOnly 1).1.hasKey errK = false ∧
    (generate_ai_service oracleSchemaOnly 1).1.hasKey filesK = true :=
  claim_C8 oracleSchemaOnly 1
    (fun t j h => by
      have h' : (if t = rawS then some (jobj []) else none) = some j := h
      split at h'
      · cases h'
        rfl
      · cases h')
    rfl rfl

/-- C4: the extraction path of each structured stage (schema, code,
review) is total and two-valued: for any oracle — hence any raw model
text, including empty, garbage, fenced or unterminated-marker text — the
stage either returns exactly the value parsed from the cleaned text, or
returns its typed parse-failure dictionary whose `"raw"` entry carries the
original raw text verbatim; no exception can escape, the functions being
total by construction. -/
theorem claim_C4 (O : Oracles) (it : Nat) (cc fb bundle : Json) :
    ((∃ j, O.loads (cleanResponse O.schemaRaw) = some j ∧ generate_file_schema O = j) ∨
     (O.loads (cleanResponse O.schemaRaw) = none ∧
      generate_file_schema O = schemaParseFailure O.schemaRaw ∧
      (generate_file_schema O).getD rawK jnull = jstr O.schemaRaw)) ∧
    ((∃ j, O.loads (cleanResponse (O.codeRaw it cc fb)) = some j ∧
        generate_code O it cc fb = j) ∨
     (O.loads (cleanResponse (O.codeRaw it cc fb)) = none ∧
      generate_code O it cc fb = codeParseFailure (O.codeRaw it cc fb) ∧
      (generate_code O it cc fb).getD rawK jnull = jstr (O.codeRaw it cc fb))) ∧
    ((∃ j, O.loads (cleanResponse (O.reviewRaw it bundle)) = some j ∧
        review_code O it bundle = j) ∨
     (O.loads (cleanResponse (O.reviewRaw it bundle)) = none ∧
      review_code O it bundle = reviewParseFailure (O.reviewRaw it bundle) ∧
      (review_code O it bundle).getD rawK jnull = jstr (O.reviewRaw it bundle))) := by
  refine ⟨?_, ?_, ?_⟩
  · cases h : O.loads (cleanResponse O.schemaRaw) with
    | some j =>
      left
      refine ⟨j, rfl, ?_⟩
      unfold generate_file_schema parse_json_response
      rw [h]
    | none =>
      right
      have heq : generate_file_schema O = schemaParseFailure O.schemaRaw := by
        unfold generate_file_schema parse_json_response
        rw [h]
      exact ⟨rfl, heq, by rw [heq]; rfl⟩
  · cases h : O.loads (cleanResponse (O.codeRaw it cc fb)) with
    | some j =>
      left
      refine ⟨j, rfl, ?_⟩
      unfold generate_code parse_json_response
      rw [h]
    | none =>
      right
      have heq : generate_code O it cc fb = codeParseFailure (O.codeRaw it cc fb) := by
        unfold generate_code parse_json_response
        rw [h]
      exact ⟨rfl, heq, by rw [heq]; rfl⟩
  · cases h : O.loads (cleanResponse (O.reviewRaw it bundle)) with
    | some j =>
      left
      refine ⟨j, rfl, ?_⟩
      unfold review_code parse_json_response
      rw [h]
    | none =>
      right
      have heq : review_code O it bundle = reviewParseFailure (O.reviewRaw it bundle) := by
        unfold review_code parse_json_response
        rw [h]
      exact ⟨rfl, heq, by rw [heq]; rfl⟩

/-- C5: reasoning-span removal is non-greedy and applies wherever a span
occurs — when the first opening marker sits at position `|a|` and the
first closing marker after it closes the span right before `c`, exactly
that span is removed and removal continues in `c`; and when the text has
an opening marker with no closing marker anywhere after it, the removal
step returns the text unchanged (and, being a total function, throws
nothing). -/
theorem claim_C5 :
    (∀ a b c : Str,
      (∀ i, i < a.length →
        ¬ occursAt thinkOpen (a ++ thinkOpen ++ b ++ thinkClose ++ c) i) →
      (∀ j, j < b.length → ¬ occursAt thinkClose (b ++ thinkClose ++ c) j) →
      stripThink (a ++ thinkOpen ++ b ++ thinkClose ++ c) = a ++ stripThink c) ∧
    (∀ a q : Str,
      (∀ i, i < a.length → ¬ occursAt thinkOpen (a ++ thinkOpen ++ q) i) →
      (∀ j, j ≤ q.length → ¬ occursAt thinkClose q j) →
      stripThink (a ++ thinkOpen ++ q) = a ++ thinkOpen ++ q) := by
  constructor
  · intro a b c hopen hclose
    have hassoc : a ++ thinkOpen ++ b ++ thinkClose ++ c
        = a ++ thinkOpen ++ (b ++ thinkClose ++ c) := by
      simp [List.append_assoc]
    have hrest : splitFirst thinkClose (b ++ thinkClose ++ c) = some (b, c) :=
      splitFirst_of_first thinkClose (by decide) b c hclose
    have hs : splitFirst thinkOpen (a ++ thinkOpen ++ (b ++ thinkClose ++ c))
        = some (a, b ++ thinkClose ++ c) := by
      apply splitFirst_of_first thinkOpen (by decide) a (b ++ thinkClose ++ c)
      intro i hi
      rw [← hassoc]
      exact hopen i hi
    rw [hassoc]
    exact stripThink_of_span hs hrest
  · intro a q hopen hclose
    have hcl : ∀ j, ¬ occursAt thinkClose q j := by
      intro j
      by_cases hj : j ≤ q.length
      · exact hclose j hj
      · exact not_occursAt_of_long thinkClose q (by decide) (by omega)
    have hnone : splitFirst thinkClose q = none :=
      splitFirst_none_of_no_occur thinkClose q hcl
    have hs : splitFirst thinkOpen (a ++ thinkOpen ++ q) = some (a, q) :=
      splitFirst_of_first thinkOpen (by decide) a q hopen
    exact stripThink_of_noclose hs hnone

/-- Witness for C5 on `"x<think>y</think>z"` (span removed) and
`"x<think>y"` (unterminated opener, text unchanged). -/
theorem claim_C5_witness :
    stripThink (strX ++ thinkOpen ++ strY ++ thinkClose ++ strZ)
      = strX ++ stripThink strZ ∧
    stripThink (strX ++ thinkOpen ++ strY) = strX ++ thinkOpen ++ strY :=
  ⟨claim_C5.1 strX strY strZ (by decide) (by decide),
   claim_C5.2 strX strY (by decide) (by decide)⟩

theorem jobj_some_inj {kvs kvs' : List (Str × Json)}
    (h : some (jobj kvs) = some (jobj kvs')) : kvs = kvs' := by
  injection h with h1
  injection h1

/-- C9 (amended): for every raw model text whose cleaned form either fails
to parse or parses to a JSON object, `analyze_requirements` returns a
dictionary containing both a `"Features"` and a `"Techstack"` key; on
parse failure the result is exactly the error dictionary carrying the raw
output with the empty feature list and the empty five-list Techstack
object, and a key absent from a parsed object is filled with that same
default. (A parsed non-object escapes this guarantee: when it passes both
Python membership tests — e.g. the array containing the strings
`"Features"` and `"Techstack"` — it is returned bare; otherwise the `in`
test or the item assignment raises an uncaught `TypeError`, see the
counterexample.) -/
theorem claim_C9 (loads : Str → Option Json) (raw : Str)
    (h : loads (cleanFenced raw) = none ∨
      ∃ kvs, loads (cleanFenced raw) = some (jobj kvs)) :
    ∃ d : List (Str × Json), analyze_requirements loads raw = some (jobj d) ∧
      (jobj d).hasKey featuresK = true ∧ (jobj d).hasKey techstackK = true ∧
      (loads (cleanFenced raw) = none →
        jobj d = jobj [(errK, jstr failedParseJsonMsg), (rawOutputK, jstr raw),
          (featuresK, jarr []), (techstackK, emptyTechstack)]) ∧
      (∀ kvs, loads (cleanFenced raw) = some (jobj kvs) →
        lookupKV kvs featuresK = none → (jobj d).getD featuresK jnull = jarr []) ∧
      (∀ kvs, loads (cleanFenced raw) = some (jobj kvs) →
        lookupKV kvs techstackK = none →
        (jobj d).getD techstackK jnull = emptyTechstack) := by
  rcases h with hnone | ⟨kvs, hk⟩
  · refine ⟨[(errK, jstr failedParseJsonMsg), (rawOutputK, jstr raw),
      (featuresK, jarr []), (techstackK, emptyTechstack)],
      ?_, rfl, rfl, fun _ => rfl, ?_, ?_⟩
    · unfold analyze_requirements
      rw [hnone]
    · intro kvs' h' _
      rw [hnone] at h'
      exact Option.noConfusion h'
    · intro kvs' h' _
      rw [hnone] at h'
      exact Option.noConfusion h'
  · cases hlf : lookupKV kvs featuresK with
    | some vF =>
      have hf : (kvs.any fun p => decide (p.1 = featuresK)) = true := by
        rw [any_key_eq_isSome, hlf]
        rfl
      cases hlt : lookupKV kvs techstackK with
      | some vT =>
        have ht : (kvs.any fun p => decide (p.1 = techstackK)) = true := by
          rw [any_key_eq_isSome, hlt]
          rfl
        have hres : analyze_requirements loads raw = some (jobj kvs) := by
          unfold analyze_requirements
          rw [hk]
          simp only [pyIn, hf, ht, if_true]
        refine ⟨kvs, hres, ?_, ?_, ?_, ?_, ?_⟩
        · simp [Json.hasKey, Json.getKey, hlf]
        · simp [Json.hasKey, Json.getKey, hlt]
        · intro hcontra
          rw [hk] at hcontra
          exact Option.noConfusion hcontra
        · intro kvs' h' habs
          have hkk := jobj_some_inj (hk.symm.trans h')
          subst hkk
          rw [hlf] at habs
          exact Option.noConfusion habs
        · intro kvs' h' habs
          have hkk := jobj_some_inj (hk.symm.trans h')
          subst hkk
          rw [hlt] at habs
          exact Option.noConfusion habs
      | none =>
        have ht : (kvs.any fun p => decide (p.1 = techstackK)) = false := by
          rw [any_key_eq_isSome, hlt]
          rfl
        have hres : analyze_requirements loads raw
            = some (jobj (setKV kvs techstackK emptyTechstack)) := by
          unfold analyze_requirements
          rw [hk]
          simp only [pyIn, hf, ht, if_true, Bool.false_eq_true, if_false, pySetItem]
        refine ⟨_, hres, ?_, ?_, ?_, ?_, ?_⟩
        · have ho := lookupKV_setKV_other featuresK techstackK (by decide)
            emptyTechstack kvs
          simp [Json.hasKey, Json.getKey, ho, hlf]
        · simp [Json.hasKey, Json.getKey, lookupKV_setKV_self]
        · intro hcontra
          rw [hk] at hcontra
          exact Option.noConfusion hcontra
        · intro kvs' h' habs
          have hkk := jobj_some_inj (hk.symm.trans h')
          subst hkk
          rw [hlf] at habs
          exact Option.noConfusion habs
        · intro kvs' h' _
          simp [Json.getD, Json.getKey, lookupKV_setKV_self]
    | none =>
      have hf : (kvs.any fun p => decide (p.1 = featuresK)) = false := by
        rw [any_key_eq_isSome, hlf]
        rfl
      have hlt2 : lookupKV (setKV kvs featuresK (jarr [])) techstackK
          = lookupKV kvs techstackK :=
        lookupKV_setKV_other techstackK featuresK (by decide) (jarr []) kvs
      cases hlt : lookupKV kvs techstackK with
      | some vT =>
        have ht : ((setKV kvs featuresK (jarr [])).any
            fun p => decide (p.1 = techstackK)) = true := by
          rw [any_key_eq_isSome, hlt2, hlt]
          rfl
        have hres : analyze_requirements loads raw
            = some (jobj (setKV kvs featuresK (jarr []))) := by
          unfold analyze_requirements
          rw [hk]
          simp only [pyIn, hf, Bool.false_eq_true, if_false, pySetItem, ht, if_true]
        refine ⟨_, hres, ?_, ?_, ?_, ?_, ?_⟩
        · simp [Json.hasKey, Json.getKey, lookupKV_setKV_self]
        · simp [Json.hasKey, Json.getKey, hlt2, hlt]
        · intro hcontra
          rw [hk] at hcontra
          exact Option.noConfusion hcontra
        · intro kvs' h' _
          simp [Json.getD, Json.getKey, lookupKV_setKV_self]
        · intro kvs' h' habs
          have hkk := jobj_some_inj (hk.symm.trans h')
          subst hkk
          rw [hlt] at habs
          exact Option.noConfusion habs
      | none =>
        have ht : ((setKV kvs featuresK (jarr [])).any
            fun p => decide (p.1 = techstackK)) = false := by
          rw [any_key_eq_isSome, hlt2, hlt]
          rfl
        have hres : analyze_requirements loads raw
            = some (jobj (setKV (setKV kvs featuresK (jarr []))
                techstackK emptyTechstack)) := by
          unfold analyze_requirements
          rw [hk]
          simp only [pyIn, hf, Bool.false_eq_true, if_false, pySetItem, ht]
        refine ⟨_, hres, ?_, ?_, ?_, ?_, ?_⟩
        · have ho := lookupKV_setKV_other featuresK techstackK (by decide)
            emptyTechstack (setKV kvs featuresK (jarr []))
          simp [Json.hasKey, Json.getKey, ho, lookupKV_setKV_self]
        · simp [Json.hasKey, Json.getKey, lookupKV_setKV_self]
        · intro hcontra
          rw [hk] at hcontra
          exact Option.noConfusion hcontra
        · intro kvs' h' _
          have ho := lookupKV_setKV_other featuresK techstackK (by decide)
            emptyTechstack (setKV kvs featuresK (jarr []))
          simp [Json.getD, Json.getKey, ho, lookupKV_setKV_self]
        · intro kvs' h' _
          simp [Json.getD, Json.getKey, lookupKV_setKV_self]

/-- C9 counterexample: two parsed-non-object inputs on which the original
claim fails. With the parser yielding `[1, 2]`, Python's
`"Features" in parsed_output` list-membership test is `False`, so
`parsed_output["Features"] = []` raises an uncaught `TypeError` (only
`json.JSONDecodeError` is caught) — no dictionary is returned, modelled
as `none`. With the parser yielding `["Features", "Techstack"]`, both
membership tests pass as list membership and the bare array is returned
unchanged — again not a dictionary with the two keys. -/
theorem claim_C9_counterexample :
    analyze_requirements loadsArr12 strX = none ∧
    analyze_requirements loadsFeatTech strX
      = some (jarr [jstr featuresK, jstr techstackK]) ∧
    (jarr [jstr featuresK, jstr techstackK]).isObj = false :=
  ⟨rfl, rfl, rfl⟩

/-- Witness for C9 (amended) on a parse failure: the defaults dictionary
with both keys, carrying the raw output. -/
theorem claim_C9_witness :
    analyze_requirements loadsNone strX =
      some (jobj [(errK, jstr failedParseJsonMsg), (rawOutputK, jstr strX),
        (featuresK, jarr []), (techstackK, emptyTechstack)]) ∧
    (jobj [(errK, jstr failedParseJsonMsg), (rawOutputK, jstr strX),
        (featuresK, jarr []), (techstackK, emptyTechstack)]).hasKey featuresK = true ∧
    (jobj [(errK, jstr failedParseJsonMsg), (rawOutputK, jstr strX),
        (featuresK, jarr []), (techstackK, emptyTechstack)]).hasKey techstackK
      = true := by
  obtain ⟨d, h1, h2, h3, h4, h5, h6⟩ := claim_C9 loadsNone strX (Or.inl rfl)
  have hd := h4 rfl
  rw [hd] at h1 h2 h3
  exact ⟨h1, h2, h3⟩

/-- C10 (amended): for every raw model text whose cleaned form either
fails to parse or parses to a JSON object, `generate_schemas` returns a
dictionary containing a `"schemas"` key; on parse failure the value is the
empty object alongside the error message and the raw output, and a parsed
object lacking the key is wrapped whole as the value of a new `"schemas"`
key instead of being rejected. (A parsed non-object can escape unwrapped
or raise, see the counterexample.) -/
theorem claim_C10 (loads : Str → Option Json) (raw : Str)
    (h : loads (cleanFenced raw) = none ∨
      ∃ kvs, loads (cleanFenced raw) = some (jobj kvs)) :
    ∃ d : List (Str × Json), generate_schemas loads raw = some (jobj d) ∧
      (jobj d).hasKey schemasK = true ∧
      (loads (cleanFenced raw) = none →
        jobj d = jobj [(errK, jstr failedParseJsonMsg), (rawOutputK, jstr raw),
          (schemasK, jobj [])]) ∧
      (∀ kvs, loads (cleanFenced raw) = some (jobj kvs) →
        lookupKV kvs schemasK = none → jobj d = jobj [(schemasK, jobj kvs)]) := by
  rcases h with hnone | ⟨kvs, hk⟩
  · refine ⟨[(errK, jstr failedParseJsonMsg), (rawOutputK, jstr raw),
      (schemasK, jobj [])], ?_, rfl, fun _ => rfl, ?_⟩
    · unfold generate_schemas
      rw [hnone]
    · intro kvs' h' _
      rw [hnone] at h'
      exact Option.noConfusion h'
  · cases hls : lookupKV kvs schemasK with
    | some vS =>
      have hs : (kvs.any fun p => decide (p.1 = schemasK)) = true := by
        rw [any_key_eq_isSome, hls]
        rfl
      have hres : generate_schemas loads raw = some (jobj kvs) := by
        unfold generate_schemas
        rw [hk]
        simp only [pyIn, hs, if_true]
      refine ⟨kvs, hres, ?_, ?_, ?_⟩
      · simp [Json.hasKey, Json.getKey, hls]
      · intro hcontra
        rw [hk] at hcontra
        exact Option.noConfusion hcontra
      · intro kvs' h' habs
        have hkk := jobj_some_inj (hk.symm.trans h')
        subst hkk
        rw [hls] at habs
        exact Option.noConfusion habs
    | none =>
      have hs : (kvs.any fun p => decide (p.1 = schemasK)) = false := by
        rw [any_key_eq_isSome, hls]
        rfl
      have hres : generate_schemas loads raw
          = some (jobj [(schemasK, jobj kvs)]) := by
        unfold generate_schemas
        rw [hk]
        simp only [pyIn, hs, Bool.false_eq_true, if_false]
      refine ⟨_, hres, rfl, ?_, ?_⟩
      · intro hcontra
        rw [hk] at hcontra
        exact Option.noConfusion hcontra
      · intro kvs' h' _
        have hkk := jobj_some_inj (hk.symm.trans h')
        rw [hkk]

/-- C10 counterexample: when the parsed JSON is the array `["schemas"]`,
the Python membership test `"schemas" not in parsed_output` is `False` on
the list, the wrap is skipped, and `generate_schemas` returns the bare
array — not a dictionary containing a `"schemas"` key. -/
theorem claim_C10_counterexample :
    generate_schemas loadsSchemasArr strX = some (jarr [jstr schemasK]) ∧
    (jarr [jstr schemasK]).isObj = false ∧
    (jarr [jstr schemasK]).hasKey schemasK = false :=
  ⟨rfl, rfl, rfl⟩

/-- Witness for C10 (amended) on a parse failure: the error dictionary
with the empty `"schemas"` object and the raw output. -/
theorem claim_C10_witness :
    generate_schemas loadsNone strX =
      some (jobj [(errK, jstr failedParseJsonMsg), (rawOutputK, jstr strX),
        (schemasK, jobj [])]) ∧
    (jobj [(errK, jstr failedParseJsonMsg), (rawOutputK, jstr strX),
        (schemasK, jobj [])]).hasKey schemasK = true := by
  obtain ⟨d, h1, h2, h3, h4⟩ := claim_C10 loadsNone strX (Or.inl rfl)
  have hd := h3 rfl
  rw [hd] at h1 h2
  exact ⟨h1, h2⟩
